import Mathlib

/-! am-router: a shallow embedding of `am_router.go`.

The router of `src/am_router.go` is embedded as pure Lean functions.

* A Go `string` is a Lean `String`; a Go slice is a `List`; a Go `int` index is an `Int`.
* The standard-library collaborators (`net/http`, `context`, `regexp`, `strings`) are modelled
  in the namespaces `http`, `context`, `regexp` and `strings`:
  the response writer is the observable state of a recorder (status code, header map, body),
  a handler is a state transformer of that writer, a context is the chain of key/value pairs
  built by `context.WithValue`, and a compiled regular expression is its
  `FindStringSubmatch` function.
* `regexp.Compile` and `http.FileServer` are parameters of the functions that call them;
  `regexp.Compile` of this file is a compiler for a fragment of the syntax, used for the
  concrete routers.
* A run-time panic is the `Except.error` result.
-/

namespace amrouter

/-! ## `strings` -/

namespace strings

/-- Go `strings.HasPrefix(s, prefix)`. -/
def HasPrefix (s pre : String) : Bool :=
  pre.data.isPrefixOf s.data

/-- Go `strings.TrimPrefix(s, prefix)`. -/
def TrimPrefix (s pre : String) : String :=
  if HasPrefix s pre then String.mk (s.data.drop pre.data.length) else s

/-- Go `strings.Join(elems, sep)`. -/
def Join : List String → String → String
  | [], _ => ""
  | [a], _ => a
  | a :: b :: rest, sep => a ++ sep ++ Join (b :: rest) sep

end strings

/-! ## `context` -/

/-- Keys under which values are stored in a request context: the router's own `CtxKey{}`
and any key of another package. -/
inductive Key where
  | CtxKey
  | foreign (name : String)
  deriving DecidableEq, Repr

/-- A Go interface value (`any`) as far as the router inspects it: `nil`, a `[]string`,
or a value of some other dynamic type. -/
inductive Any where
  | nil
  | strings (fields : List String)
  | other (repr : String)
  deriving DecidableEq, Repr

namespace context

/-- A context is the chain of `WithValue` nodes, innermost first; `Background()` is `[]`. -/
abbrev Context := List (Key × Any)

/-- Go `context.Background()`. -/
def Background : Context := []

/-- Go `context.WithValue(parent, key, val)`. -/
def WithValue (parent : Context) (key : Key) (val : Any) : Context :=
  (key, val) :: parent

/-- Go `ctx.Value(key)`: the innermost value stored under `key`, `nil` when there is none. -/
def Value : Context → Key → Any
  | [], _ => Any.nil
  | (k, v) :: parent, key => if k = key then v else Value parent key

end context

/-! ## `regexp` -/

namespace regexp

/-- A compiled `*regexp.Regexp`, given by its `FindStringSubmatch` method: the empty list
(Go `nil`) when the string does not match, otherwise the full match followed by the
capture groups. -/
structure Regexp where
  FindStringSubmatch : String → List String

end regexp

/-! ## `net/http` -/

namespace http

/-- The request as the router reads it: `r.Method`, `r.URL.Path` and `r.Context()`. -/
structure Request where
  Method : String
  Path : String
  ctx : context.Context
  deriving DecidableEq, Repr

/-- Go `r.Context()`. -/
def Request.Context (r : Request) : context.Context := r.ctx

/-- Go `r.WithContext(ctx)`. -/
def Request.WithContext (r : Request) (ctx : context.Context) : Request :=
  { r with ctx := ctx }

/-- The observable state of an `http.ResponseWriter` (as kept by
`httptest.ResponseRecorder`): the status code, whether the header has been written,
the live header map, the header map as it was when the status was written (what the
client receives), and the body written so far. -/
structure ResponseWriter where
  Code : Nat
  wroteHeader : Bool
  HeaderMap : List (String × String)
  snapHeader : List (String × String)
  Body : String
  deriving DecidableEq, Repr

/-- A recorder on which nothing has been written (`httptest.NewRecorder()`). -/
def NewRecorder : ResponseWriter :=
  { Code := 200, wroteHeader := false, HeaderMap := [], snapHeader := [], Body := "" }

/-- Go `w.WriteHeader(code)`: only the first call takes effect. -/
def ResponseWriter.WriteHeader (w : ResponseWriter) (code : Nat) : ResponseWriter :=
  if w.wroteHeader then w
  else { w with Code := code, wroteHeader := true, snapHeader := w.HeaderMap }

/-- Go `w.Write(data)`: writes status 200 first when no status was written yet. -/
def ResponseWriter.Write (w : ResponseWriter) (data : String) : ResponseWriter :=
  let w1 := if w.wroteHeader then w else w.WriteHeader 200
  { w1 with Body := w1.Body ++ data }

/-- Go `w.Header().Set(key, value)`. -/
def ResponseWriter.HeaderSet (w : ResponseWriter) (key value : String) : ResponseWriter :=
  { w with HeaderMap := (key, value) :: w.HeaderMap.filter (fun kv => kv.1 ≠ key) }

/-- Go `w.Header().Del(key)`. -/
def ResponseWriter.HeaderDel (w : ResponseWriter) (key : String) : ResponseWriter :=
  { w with HeaderMap := w.HeaderMap.filter (fun kv => kv.1 ≠ key) }

/-- The value of header `key` in the response the client receives (`w.Result().Header`). -/
def ResponseWriter.ResultHeader (w : ResponseWriter) (key : String) : Option String :=
  (w.snapHeader.find? (fun kv => kv.1 = key)).map Prod.snd

/-- Go `http.Handler`: `ServeHTTP(w, r)` as a transformer of the writer state. -/
abbrev Handler := ResponseWriter → Request → ResponseWriter

/-- Go `http.Error(w, error, code)`. -/
def Error (w : ResponseWriter) (error : String) (code : Nat) : ResponseWriter :=
  (((w.HeaderSet "Content-Type" "text/plain; charset=utf-8").HeaderSet
    "X-Content-Type-Options" "nosniff").WriteHeader code).Write (error ++ "\n")

/-- Go `http.NotFound(w, r)`. -/
def NotFound : Handler :=
  fun w _ => Error w "404 page not found" 404

/-- Go `http.NotFoundHandler()`. -/
def NotFoundHandler : Handler := NotFound

/-- Go `http.StripPrefix(prefix, h)` for a URL without `RawPath`. -/
def StripPrefix (pre : String) (h : Handler) : Handler :=
  if pre = "" then h
  else fun w r =>
    let p := strings.TrimPrefix r.Path pre
    if p.length < r.Path.length then h w { r with Path := p }
    else NotFound w r

/-- Go `embed.FS`: the embedded files, path and content. -/
structure EmbedFS where
  files : List (String × String)
  deriving DecidableEq, Repr

/-- Go `http.FileSystem` values the router builds: `http.Dir(root)` and `http.FS(fsys)`. -/
inductive FileSystem where
  | Dir (root : String)
  | FS (fsys : EmbedFS)
  deriving DecidableEq, Repr

/-- One call on the `http.ResponseWriter` interface. -/
inductive WriterCall where
  | WriteHeader (code : Nat)
  | Write (data : String)
  | HeaderSet (key value : String)
  | HeaderDel (key : String)
  deriving DecidableEq, Repr

/-- The writer after one interface call. -/
def ResponseWriter.call (w : ResponseWriter) : WriterCall → ResponseWriter
  | .WriteHeader code => w.WriteHeader code
  | .Write data => w.Write data
  | .HeaderSet key value => w.HeaderSet key value
  | .HeaderDel key => w.HeaderDel key

/-- The writer after a sequence of interface calls. -/
def ResponseWriter.calls (w : ResponseWriter) (cs : List WriterCall) : ResponseWriter :=
  cs.foldl ResponseWriter.call w

end http

open http

/-! ## The router -/

/-- Go `type MiddleWareFunc func(http.Handler) http.Handler`. -/
abbrev MiddleWareFunc := Handler → Handler

/-- Go `type AMRoute struct`. -/
structure AMRoute where
  Method : String
  Path : regexp.Regexp
  Handler : Handler
  Middleware : List MiddleWareFunc

/-- Go `type AMRouter struct`. -/
structure AMRouter where
  PathToStaticDir : String
  EmbeddedStaticDir : EmbedFS
  IsProduction : Bool
  Routes : List AMRoute
  Middleware : List MiddleWareFunc
  GlobalMiddleware : List MiddleWareFunc

/-- Go `NewRouter()`: the three slices are empty, the other fields have their zero value. -/
def NewRouter : AMRouter :=
  { PathToStaticDir := "", EmbeddedStaticDir := ⟨[]⟩, IsProduction := false,
    Routes := [], Middleware := [], GlobalMiddleware := [] }

/-- A run-time panic of the Go program. -/
inductive Panic where
  | interfaceConversion
  | indexOutOfRange
  deriving DecidableEq, Repr

/-- Go slice indexing `xs[i]` with an `int` index: panics outside `0 .. len(xs) - 1`. -/
def index {α : Type} (xs : List α) (i : Int) : Except Panic α :=
  if i < 0 then .error Panic.indexOutOfRange
  else
    match xs[i.toNat]? with
    | some x => .ok x
    | none => .error Panic.indexOutOfRange

/-- Go type assertion `v.([]string)` without the comma-ok form: panics unless the dynamic
type of `v` is `[]string`. -/
def assertStrings : Any → Except Panic (List String)
  | Any.strings fields => .ok fields
  | _ => .error Panic.interfaceConversion

/-- Go `GetField(r, index)` (the `fmt.Println` of the fields is not modelled). -/
def GetField (r : Request) (idx : Int) : Except Panic String :=
  match assertStrings (context.Value r.Context Key.CtxKey) with
  | .error p => .error p
  | .ok fields =>
    if fields.length > 0 then
      if idx ≥ (fields.length : Int) then
        .ok ""
      else
        index fields idx
    else
      .ok ""

/-- Go `AddRoute(method, pattern, handler, mware...)`, with `regexp.Compile` as the
parameter `Compile`. The result is the router after the call and the returned `error`
(`none` is Go `nil`). -/
def AddRoute (Compile : String → Except String regexp.Regexp) (rtr : AMRouter)
    (method : String) (pattern : String) (handler : Handler) (mware : List MiddleWareFunc) :
    AMRouter × Option String :=
  let mwareToAdd : List MiddleWareFunc :=
    if mware.length > 0 then mware.foldl (fun acc mw => acc ++ [mw]) [] else []
  match Compile ("^" ++ pattern ++ "$") with
  | .error err => (rtr, some err)
  | .ok re =>
    ({ rtr with Routes := rtr.Routes ++
        [{ Method := method, Path := re, Handler := handler, Middleware := mwareToAdd }] },
      none)

/-- The loop of `AddMiddlewareToHandler`: `n` is `i + 1` for the loop index `i`, so the
loop applies `middleware[n-1]`, ..., `middleware[0]` in that order. -/
def AddMiddlewareToHandler.loop (middleware : List MiddleWareFunc) :
    (n : Nat) → n ≤ middleware.length → Handler → Handler
  | 0, _, handler => handler
  | i + 1, h, handler =>
    let currentMiddleware := middleware.get ⟨i, h⟩
    AddMiddlewareToHandler.loop middleware i (Nat.le_of_succ_le h) (currentMiddleware handler)

/-- Go `AddMiddlewareToHandler(handler, middleware...)`. -/
def AddMiddlewareToHandler (handler : Handler) (middleware : List MiddleWareFunc) : Handler :=
  AddMiddlewareToHandler.loop middleware middleware.length (Nat.le_refl _) handler

/-- Go `Use(mw)`. -/
def Use (rtr : AMRouter) (mw : MiddleWareFunc) : AMRouter :=
  { rtr with GlobalMiddleware := rtr.GlobalMiddleware ++ [mw] }

/-- Go `ServeStaticDirectory(w, r)`, with `http.FileServer` as the parameter `FileServer`:
the writer after the call and the returned bool. -/
def ServeStaticDirectory (FileServer : FileSystem → Handler) (rtr : AMRouter)
    (w : ResponseWriter) (r : Request) : ResponseWriter × Bool :=
  if strings.HasPrefix r.Path rtr.PathToStaticDir then
    if !rtr.IsProduction then
      let fileServer := FileServer (FileSystem.Dir rtr.PathToStaticDir)
      (StripPrefix (rtr.PathToStaticDir ++ "/") fileServer w r, true)
    else
      let fileServer := FileServer (FileSystem.FS rtr.EmbeddedStaticDir)
      (StripPrefix (rtr.PathToStaticDir ++ "/") fileServer w r, true)
  else
    (w, false)

/-- Go `Custom404Handler(w, r)`. -/
def Custom404Handler (rtr : AMRouter) (w : ResponseWriter) (r : Request) : ResponseWriter :=
  let notFoundHandler : Handler :=
    if rtr.GlobalMiddleware.length > 0 then
      AddMiddlewareToHandler NotFoundHandler rtr.GlobalMiddleware
    else NotFoundHandler
  notFoundHandler (w.WriteHeader 404) r

/-- The closure `customErrFunc` of `ServeHTTP`: the 405 responder for the accumulated
`allow` methods. -/
def ServeHTTP.customErrFunc (allow : List String) : Handler :=
  fun w _ =>
    ((w.HeaderSet "Allow" (strings.Join allow ", ")).WriteHeader 405).Write
      "405 method not allowed"

/-- The closure `handler` of `ServeHTTP` before any middleware is added: it calls the
route's handler on the request with the context `ctx`. -/
def ServeHTTP.handler (route : AMRoute) (ctx : context.Context) : Handler :=
  fun w r => route.Handler w (r.WithContext ctx)

/-- The route loop of `ServeHTTP` followed by the code after it: `routes` are the routes
still to be scanned and `allow` the methods accumulated so far. -/
def ServeHTTP.scan (rtr : AMRouter) (w : ResponseWriter) (r : Request) :
    List AMRoute → List String → ResponseWriter
  | [], allow =>
    if allow.length > 0 then
      let customErrFunc := AddMiddlewareToHandler (ServeHTTP.customErrFunc allow)
        rtr.GlobalMiddleware
      customErrFunc w r
    else
      Custom404Handler rtr (w.WriteHeader 404) r
  | route :: rest, allow =>
    let submatches := route.Path.FindStringSubmatch r.Path
    if submatches.length > 0 then
      if r.Method ≠ route.Method then
        ServeHTTP.scan rtr w r rest (allow ++ [route.Method])
      else
        let ctx := context.WithValue r.Context Key.CtxKey (Any.strings (submatches.drop 1))
        let handler : Handler := ServeHTTP.handler route ctx
        let handler : Handler :=
          if route.Middleware.length > 0 then
            AddMiddlewareToHandler handler route.Middleware
          else handler
        let handler : Handler :=
          if rtr.GlobalMiddleware.length > 0 then
            AddMiddlewareToHandler handler rtr.GlobalMiddleware
          else handler
        handler w r
    else
      ServeHTTP.scan rtr w r rest allow

/-- Go `ServeHTTP(w, r)`, with `http.FileServer` as the parameter `FileServer`. -/
def ServeHTTP (FileServer : FileSystem → Handler) (rtr : AMRouter)
    (w : ResponseWriter) (r : Request) : ResponseWriter :=
  let (w1, isStatic) := ServeStaticDirectory FileServer rtr w r
  if isStatic then
    w1
  else
    ServeHTTP.scan rtr w1 r rtr.Routes []

/-! ## Vocabulary of the statements -/

/-- The route's pattern matches the request path (`len(matches) > 0` in `ServeHTTP`). -/
def pathMatches (route : AMRoute) (r : Request) : Bool :=
  decide ((route.Path.FindStringSubmatch r.Path).length > 0)

/-- The route matches both the request path and the request method. -/
def fullMatch (route : AMRoute) (r : Request) : Bool :=
  pathMatches route r && decide (route.Method = r.Method)

/-- The request path is under the static prefix. -/
def underStaticPrefix (rtr : AMRouter) (r : Request) : Bool :=
  strings.HasPrefix r.Path rtr.PathToStaticDir

/-- The context `ServeHTTP` hands to a matched route: the request context extended with
the capture groups (the submatches without the full match) under `CtxKey`. -/
def routeCtx (route : AMRoute) (r : Request) : context.Context :=
  context.WithValue r.Context Key.CtxKey
    (Any.strings ((route.Path.FindStringSubmatch r.Path).drop 1))

/-- The terminal handler of a matched route: the route's handler, called on the request
carrying the path parameters. -/
def terminal (route : AMRoute) (r : Request) : Handler :=
  ServeHTTP.handler route (routeCtx route r)

/-- Right fold of application: `applyAll [m1, ..., mn] h = m1 (m2 (... (mn h)))`. -/
def applyAll (middleware : List MiddleWareFunc) (h : Handler) : Handler :=
  middleware.foldr (fun m acc => m acc) h

/-- A handler that acts on the writer only through the `http.ResponseWriter` interface:
its effect on every writer is a sequence of interface calls. -/
def viaInterface (h : Handler) : Prop :=
  ∀ w r, ∃ cs : List WriterCall, h w r = w.calls cs

/-! ## Concrete routers used as instances -/

/-- The compiled form of an anchored pattern that matches the path `p` and nothing else,
without capture groups (such as `^/$` for `p = "/"`). -/
def exactPath (p : String) : regexp.Regexp :=
  ⟨fun s => if s = p then [s] else []⟩

/-- A handler that writes `msg` (Go `fmt.Fprint(w, msg)`). -/
def say (msg : String) : Handler :=
  fun w _ => w.Write msg

/-- A middleware that writes `name;` before it calls the wrapped handler and `name-post;`
after. -/
def trace (name : String) : MiddleWareFunc :=
  fun next w r => (next (w.Write (name ++ ";")) r).Write (name ++ "-post;")

/-- A file server that finds no file. -/
def noFiles : FileSystem → Handler :=
  fun _ => NotFound

/-- Two routes on the path `/`: `POST` registered first, `GET` second, behind the static
prefix `/static/`. -/
def twoMethods : AMRouter :=
  { NewRouter with
    PathToStaticDir := "/static/"
    Routes := [⟨"POST", exactPath "/", say "first", []⟩, ⟨"GET", exactPath "/", say "second", []⟩] }

/-- A router with global middleware `G1`, `G2` and one `GET /` route with route middleware
`R1`, `R2`. -/
def onion : AMRouter :=
  { NewRouter with
    PathToStaticDir := "/static/"
    Routes := [⟨"GET", exactPath "/", say "handler;", [trace "R1", trace "R2"]⟩]
    GlobalMiddleware := [trace "G1", trace "G2"] }

/-- The request `GET /` with a background context. -/
def getRoot : Request := ⟨"GET", "/", context.Background⟩

/-- The request `PUT /` with a background context. -/
def putRoot : Request := ⟨"PUT", "/", context.Background⟩

/-- The request `GET /missing` with a background context. -/
def getMissing : Request := ⟨"GET", "/missing", context.Background⟩

/-- A middleware that sets the response header `key` to `value` and calls the wrapped
handler. -/
def stamp (key value : String) : MiddleWareFunc :=
  fun next w r => next (w.HeaderSet key value) r

/-- Three routes on the path `/` with the methods `POST`, `GET`, `POST`, and one global
middleware that sets the header `X-Global`. -/
def threeRoutes : AMRouter :=
  { NewRouter with
    PathToStaticDir := "/static/"
    Routes := [⟨"POST", exactPath "/", say "first", []⟩, ⟨"GET", exactPath "/", say "second", []⟩,
      ⟨"POST", exactPath "/", say "third", [trace "R1"]⟩]
    GlobalMiddleware := [stamp "X-Global" "true"] }

/-- A request whose context carries the parameter list `fields` under `CtxKey`
(as built in `TestGetField`). -/
def requestWithFields (fields : List String) : Request :=
  ⟨"", "", context.WithValue context.Background Key.CtxKey (Any.strings fields)⟩

/-- A request to which no path parameters were attached (`&http.Request{}`, whose
`Context()` is the background context). -/
def bareRequest : Request := ⟨"", "", context.Background⟩

/-! ## A fragment of Go regular expressions -/

namespace regexp

/-- The syntax tree of a regular expression of the modelled fragment of Go's RE2 syntax:
literal characters, `.`, `^`, `$`, concatenation, `|`, the greedy operators `*`, `+`, `?`
and capturing groups `( )`. -/
inductive Re where
  | empty
  | char (c : Char)
  | any
  | bol
  | eol
  | cat (a b : Re)
  | alt (a b : Re)
  | star (a : Re)
  | plus (a : Re)
  | opt (a : Re)
  | group (idx : Nat) (a : Re)
  deriving DecidableEq, Repr

/-- One open level of the parser: the index of the capturing group being read (0 at top
level), the finished branches of its alternation (latest first), and the items of the
branch being read (latest first, each flagged when it already carries a repetition
operator). -/
structure Frame where
  idx : Nat
  alts : List Re
  cur : List (Re × Bool)
  deriving DecidableEq, Repr

/-- The concatenation of the items of the branch being read. -/
def Frame.branch (f : Frame) : Re :=
  (f.cur.reverse.map Prod.fst).foldr Re.cat Re.empty

/-- The alternation of all branches of the level, in the order they were written. -/
def Frame.close (f : Frame) : Re :=
  f.alts.foldl (fun acc b => Re.alt b acc) f.branch

/-- The parser state: the innermost open level, the levels around it, and the index of
the next capturing group. -/
structure ParseState where
  top : Frame
  below : List Frame
  next : Nat
  deriving DecidableEq, Repr

/-- Append an item to the branch being read. -/
def ParseState.push (st : ParseState) (a : Re) : ParseState :=
  { st with top := { st.top with cur := (a, false) :: st.top.cur } }

/-- The parser's step on one character of the expression. `|` closes the branch being
read at the innermost open level only: it binds weaker than concatenation and than the
anchors `^` and `$`. -/
def parseStep (st : ParseState) (c : Char) : Except String ParseState :=
  if c = '(' then
    .ok { top := ⟨st.next, [], []⟩, below := st.top :: st.below, next := st.next + 1 }
  else if c = ')' then
    match st.below with
    | [] => .error "unexpected )"
    | parent :: rest =>
      .ok { top := { parent with
                     cur := (Re.group st.top.idx st.top.close, false) :: parent.cur },
            below := rest, next := st.next }
  else if c = '|' then
    .ok { st with top := { st.top with alts := st.top.branch :: st.top.alts, cur := [] } }
  else if c = '*' ∨ c = '+' ∨ c = '?' then
    match st.top.cur with
    | [] => .error "missing argument to repetition operator"
    | (_, true) :: _ => .error "repetition of a repetition is outside the fragment"
    | (a, false) :: items =>
      let rep := if c = '*' then Re.star a else if c = '+' then Re.plus a else Re.opt a
      .ok { st with top := { st.top with cur := (rep, true) :: items } }
  else if c = '.' then .ok (st.push Re.any)
  else if c = '^' then .ok (st.push Re.bol)
  else if c = '$' then .ok (st.push Re.eol)
  else if c = '[' ∨ c = ']' ∨ c = '{' ∨ c = '}' ∨ c = '\\' then
    .error "character classes, counted repetition and escapes are outside the fragment"
  else .ok (st.push (Re.char c))

/-- Run the parser over the characters of the expression. -/
def parseChars : List Char → ParseState → Except String ParseState
  | [], st => .ok st
  | c :: cs, st =>
    match parseStep st c with
    | .error e => .error e
    | .ok st1 => parseChars cs st1

/-- Parse an expression of the fragment: its syntax tree and its number of capturing
groups, or the parse error. -/
def parse (expr : String) : Except String (Re × Nat) :=
  match parseChars expr.data { top := ⟨0, [], []⟩, below := [], next := 1 } with
  | .error e => .error e
  | .ok st =>
    match st.below with
    | [] => .ok (st.top.close, st.next - 1)
    | _ :: _ => .error "missing closing )"

/-- A position of the matcher in the text: the number of characters consumed, the
characters that remain, and the captures made so far (latest first). -/
structure MState where
  pos : Nat
  rest : List Char
  caps : List (Nat × String)
  deriving DecidableEq, Repr

/-- At most `n` further iterations of `f`, each consuming at least one character; more
iterations are preferred to fewer (greedy). -/
def starIter (f : MState → List MState) : Nat → MState → List MState
  | 0, s => [s]
  | n + 1, s =>
    ((f s).filter (fun t => decide (t.rest.length < s.rest.length))).flatMap (starIter f n)
      ++ [s]

/-- All ways the expression matches at the position `s`, in the order of preference of
Go's leftmost-first semantics (left branch of `|` first, greedy repetition). -/
def Re.run : Re → MState → List MState
  | .empty => fun s => [s]
  | .char c => fun s =>
    match s.rest with
    | d :: rest => if d = c then [⟨s.pos + 1, rest, s.caps⟩] else []
    | [] => []
  | .any => fun s =>
    match s.rest with
    | d :: rest => if d = '\n' then [] else [⟨s.pos + 1, rest, s.caps⟩]
    | [] => []
  | .bol => fun s => if s.pos = 0 then [s] else []
  | .eol => fun s => if s.rest.isEmpty then [s] else []
  | .cat a b => fun s => (a.run s).flatMap b.run
  | .alt a b => fun s => a.run s ++ b.run s
  | .star a => fun s => starIter a.run s.rest.length s
  | .plus a => fun s => (a.run s).flatMap (fun t => starIter a.run t.rest.length t)
  | .opt a => fun s => a.run s ++ [s]
  | .group idx a => fun s =>
    (a.run s).map
      (fun t => { t with caps := (idx, String.mk (s.rest.take (t.pos - s.pos))) :: t.caps })

/-- The text of capture group `idx`: its latest capture, the empty string when the group
did not take part in the match. -/
def capture (caps : List (Nat × String)) (idx : Nat) : String :=
  match caps.find? (fun kv => kv.1 = idx) with
  | some kv => kv.2
  | none => ""

/-- The leftmost match of `re` at or after position `pos`: the matched text followed by
the `n` capture groups, or the empty list when there is no match. -/
def find (re : Re) (n : Nat) : Nat → List Char → List String
  | pos, rest =>
    match re.run ⟨pos, rest, []⟩ with
    | t :: _ =>
      String.mk (rest.take (t.pos - pos)) :: (List.range n).map (fun i => capture t.caps (i + 1))
    | [] =>
      match rest with
      | [] => []
      | _ :: rest1 => find re n (pos + 1) rest1

/-- Go `regexp.Compile(expr)` on the fragment (expressions outside the fragment are
reported as errors of the model). -/
def Compile (expr : String) : Except String Regexp :=
  match parse expr with
  | .error e => .error e
  | .ok (re, n) => .ok ⟨fun s => find re n 0 s.data⟩

/-- The whole text matches the expression: some match that starts at the first character
ends after the last. -/
def Re.matchesWhole (re : Re) (text : String) : Bool :=
  (re.run ⟨0, text.data, []⟩).any (fun t => t.rest.isEmpty)

end regexp

/-! ## Routers registered through `AddRoute` -/

/-- The whole path matches the pattern `p` of the fragment, that is `p` anchored at both
ends. -/
def wholeMatch (p path : String) : Bool :=
  match regexp.parse p with
  | .ok (re, _) => re.matchesWhole path
  | .error _ => false

/-- The text a caller sees for the outcome of `GetField`: the field, or `<panic>` when the
call panicked (as a deferred `recover` observes it). -/
def renderField : Except Panic String → String
  | .ok s => s
  | .error _ => "<panic>"

/-- A handler that writes the outcome of `GetField(r, idx)` to the body. -/
def echoField (idx : Int) : Handler :=
  fun w r => w.Write (renderField (GetField r idx))

/-- A middleware that records the outcome of `GetField(r, idx)`, for the request it
receives, in the response header `key`, and calls the wrapped handler. -/
def probeField (key : String) (idx : Int) : MiddleWareFunc :=
  fun next w r => next (w.HeaderSet key (renderField (GetField r idx))) r

/-- A file server over the named files: it writes the content of the file whose name is
the request path, and answers not-found for every other path. -/
def serveFiles (files : List (String × String)) : FileSystem → Handler :=
  fun _ w r =>
    match files.find? (fun f => f.1 = r.Path) with
    | some f => w.Write f.2
    | none => NotFound w r

/-- A router with the static prefix `/static/` and no routes. -/
def staticSlash : AMRouter :=
  { NewRouter with PathToStaticDir := "/static/" }

/-- The compiled form of `^/$` in the fragment. -/
def rootPattern : regexp.Regexp :=
  ⟨fun s =>
    regexp.find (.cat .bol (.cat (.char '/') (.cat .eol .empty))) 0 0 s.data⟩

/-- The scenario router: `NewRouter()` followed by `AddRoute("GET", "/", h)` where `h`
writes `hello`. -/
def helloRouter : AMRouter :=
  (AddRoute regexp.Compile NewRouter "GET" "/" (say "hello") []).1

/-- The router `staticSlash` after `AddRoute("GET", "/a|/b", h)`. -/
def altRouter : AMRouter :=
  (AddRoute regexp.Compile staticSlash "GET" "/a|/b" (say "ab") []).1

/-- A router with a global middleware and a route middleware that both probe path
parameter 0, and the route `GET /user/(.+)` whose handler writes path parameter 0. -/
def userRouter : AMRouter :=
  (AddRoute regexp.Compile
    { staticSlash with GlobalMiddleware := [probeField "X-Global" 0] }
    "GET" "/user/(.+)" (echoField 0) [probeField "X-Route" 0]).1

/-- The compiled form of `^/user/(.+)$` in the fragment. -/
def userPattern : regexp.Regexp :=
  ⟨fun s =>
    regexp.find
      (.cat .bol (.cat (.char '/') (.cat (.char 'u') (.cat (.char 's') (.cat (.char 'e')
        (.cat (.char 'r') (.cat (.char '/')
          (.cat (.group 1 (.cat (.plus .any) .empty)) (.cat .eol .empty)))))))))
      1 0 s.data⟩

/-- The route of `userRouter`. -/
def userRoute : AMRoute :=
  ⟨"GET", userPattern, echoField 0, [probeField "X-Route" 0]⟩

/-- A router with the static prefix `/static`, a global middleware, and a route on the
path of a static file. -/
def staticRouter : AMRouter :=
  (AddRoute regexp.Compile
    { NewRouter with PathToStaticDir := "/static", GlobalMiddleware := [trace "G1"] }
    "GET" "/static/test.txt" (say "route") [trace "R1"]).1

/-- The request `POST /` with a background context. -/
def postRoot : Request := ⟨"POST", "/", context.Background⟩

/-- The request `GET /user/42` with a background context. -/
def getUser : Request := ⟨"GET", "/user/42", context.Background⟩

/-- The request `GET /static/test.txt` with a background context. -/
def getStaticFile : Request := ⟨"GET", "/static/test.txt", context.Background⟩

/-! ## Lemmas on the middleware composer -/

theorem AddMiddlewareToHandler.loop_eq (middleware : List MiddleWareFunc) :
    ∀ (n : Nat) (h : n ≤ middleware.length) (handler : Handler),
      AddMiddlewareToHandler.loop middleware n h handler
        = applyAll (middleware.take n) handler := by
  intro n
  induction n with
  | zero => intro h handler; simp [AddMiddlewareToHandler.loop, applyAll]
  | succ i ih =>
    intro h handler
    have hi : i < middleware.length := h
    simp only [AddMiddlewareToHandler.loop]
    rw [ih]
    rw [List.take_succ, List.getElem?_eq_getElem hi]
    simp only [applyAll, Option.toList, List.foldr_append, List.foldr_cons, List.foldr_nil,
      List.get_eq_getElem]

theorem addMiddleware_eq_applyAll (handler : Handler) (middleware : List MiddleWareFunc) :
    AddMiddlewareToHandler handler middleware = applyAll middleware handler := by
  unfold AddMiddlewareToHandler
  rw [AddMiddlewareToHandler.loop_eq, List.take_length]

theorem applyAll_append (xs ys : List MiddleWareFunc) (h : Handler) :
    applyAll (xs ++ ys) h = applyAll xs (applyAll ys h) := by
  simp [applyAll]

theorem intercalate_go_acc (sep : String) :
    ∀ (elems : List String) (acc : String),
      String.intercalate.go acc sep elems = acc ++ String.intercalate.go "" sep elems := by
  intro elems
  induction elems with
  | nil => intro acc; simp [String.intercalate.go]
  | cons a rest ih =>
    intro acc
    simp only [String.intercalate.go]
    rw [ih (acc ++ sep ++ a), ih ("" ++ sep ++ a)]
    simp [String.append_assoc]

theorem Join_eq_intercalate (elems : List String) (sep : String) :
    strings.Join elems sep = String.intercalate sep elems := by
  induction elems with
  | nil => rfl
  | cons a rest ih =>
    cases rest with
    | nil => simp [strings.Join, String.intercalate, String.intercalate.go]
    | cons b rest =>
      simp only [strings.Join, ih, String.intercalate, String.intercalate.go]
      rw [intercalate_go_acc sep rest b, intercalate_go_acc sep rest (a ++ sep ++ b)]
      simp [String.append_assoc]

/-! ## Lemmas on the dispatcher -/

theorem guarded_addMiddleware (handler : Handler) (middleware : List MiddleWareFunc) :
    (if middleware.length > 0 then AddMiddlewareToHandler handler middleware else handler)
      = applyAll middleware handler := by
  cases middleware with
  | nil => simp [applyAll]
  | cons m rest => simp [addMiddleware_eq_applyAll]

theorem ServeHTTP_not_static (FileServer : FileSystem → Handler) (rtr : AMRouter)
    (w : ResponseWriter) (r : Request) (hstatic : underStaticPrefix rtr r = false) :
    ServeHTTP FileServer rtr w r = ServeHTTP.scan rtr w r rtr.Routes [] := by
  unfold underStaticPrefix at hstatic
  simp [ServeHTTP, ServeStaticDirectory, hstatic]

theorem scan_hit (rtr : AMRouter) (w : ResponseWriter) (r : Request) (route : AMRoute)
    (rest : List AMRoute) (allow : List String) (hroute : fullMatch route r = true) :
    ServeHTTP.scan rtr w r (route :: rest) allow
      = applyAll rtr.GlobalMiddleware (applyAll route.Middleware (terminal route r)) w r := by
  simp only [fullMatch, pathMatches, Bool.and_eq_true, decide_eq_true_eq] at hroute
  obtain ⟨hpath, hmethod⟩ := hroute
  have hne : ¬ (r.Method ≠ route.Method) := by simp [hmethod]
  simp only [ServeHTTP.scan, hpath, if_true, hne, if_false, guarded_addMiddleware]
  rfl

theorem scan_skip (rtr : AMRouter) (w : ResponseWriter) (r : Request) :
    ∀ (pre rest : List AMRoute) (allow : List String),
      (∀ x ∈ pre, fullMatch x r = false) →
      ServeHTTP.scan rtr w r (pre ++ rest) allow
        = ServeHTTP.scan rtr w r rest
            (allow ++ (pre.filter (fun x => pathMatches x r)).map AMRoute.Method) := by
  intro pre
  induction pre with
  | nil => intro rest allow _; simp
  | cons x pre ih =>
    intro rest allow hpre
    have hx : fullMatch x r = false := hpre x (List.mem_cons_self _ _)
    have hrest : ∀ y ∈ pre, fullMatch y r = false :=
      fun y hy => hpre y (List.mem_cons_of_mem _ hy)
    by_cases hpath : (x.Path.FindStringSubmatch r.Path).length > 0
    · have hp : pathMatches x r = true := by simp [pathMatches, hpath]
      have hmethod : r.Method ≠ x.Method := by
        intro heq
        simp [fullMatch, hp, heq] at hx
      simp only [List.cons_append, ServeHTTP.scan, hpath, if_true, hmethod, ne_eq,
        not_false_eq_true]
      change ServeHTTP.scan rtr w r (pre ++ rest) _ = _
      rw [ih rest _ hrest]
      simp [List.filter_cons, hp]
    · have hp : pathMatches x r = false := by simp [pathMatches, hpath]
      simp only [List.cons_append, ServeHTTP.scan, hpath, if_false]
      change ServeHTTP.scan rtr w r (pre ++ rest) _ = _
      rw [ih rest _ hrest]
      simp [List.filter_cons, hp]

theorem scan_nil_allow (rtr : AMRouter) (w : ResponseWriter) (r : Request)
    (allow : List String) (hallow : allow ≠ []) :
    ServeHTTP.scan rtr w r [] allow
      = applyAll rtr.GlobalMiddleware (ServeHTTP.customErrFunc allow) w r := by
  have hlen : allow.length > 0 := List.length_pos.mpr hallow
  simp only [ServeHTTP.scan, hlen, if_true, addMiddleware_eq_applyAll]

theorem WriteHeader_idem (w : ResponseWriter) (code : Nat) :
    (w.WriteHeader code).WriteHeader code = w.WriteHeader code := by
  unfold ResponseWriter.WriteHeader
  by_cases h : w.wroteHeader = true <;> simp [h]

theorem scan_nil_empty (rtr : AMRouter) (w : ResponseWriter) (r : Request) :
    ServeHTTP.scan rtr w r [] []
      = applyAll rtr.GlobalMiddleware NotFoundHandler (w.WriteHeader 404) r := by
  simp only [ServeHTTP.scan, List.length_nil, gt_iff_lt, Nat.lt_irrefl, if_false,
    Custom404Handler, guarded_addMiddleware, WriteHeader_idem]

theorem exists_first_fullMatch (r : Request) :
    ∀ routes : List AMRoute, (∃ route ∈ routes, fullMatch route r = true) →
      ∃ pre route post, routes = pre ++ route :: post ∧
        (∀ x ∈ pre, fullMatch x r = false) ∧ fullMatch route r = true := by
  intro routes
  induction routes with
  | nil => rintro ⟨route, hmem, _⟩; cases hmem
  | cons x rest ih =>
    rintro ⟨route, hmem, hroute⟩
    by_cases hx : fullMatch x r = true
    · exact ⟨[], x, rest, rfl, by simp, hx⟩
    · have hx0 : fullMatch x r = false := by simpa using hx
      have hin : route ∈ rest := by
        rcases List.mem_cons.mp hmem with h | h
        · subst h; exact absurd hroute hx
        · exact h
      obtain ⟨pre, y, post, hsplit, hpre, hy⟩ := ih ⟨route, hin, hroute⟩
      refine ⟨x :: pre, y, post, by simp [hsplit], ?_, hy⟩
      intro z hz
      rcases List.mem_cons.mp hz with h | h
      · subst h; exact hx0
      · exact hpre z h

theorem WriteHeader_wrote (w : ResponseWriter) (code : Nat) :
    (w.WriteHeader code).wroteHeader = true := by
  unfold ResponseWriter.WriteHeader
  by_cases h : w.wroteHeader = true <;> simp [h]

theorem WriteHeader_code_fresh (w : ResponseWriter) (code : Nat) (h : w.wroteHeader = false) :
    (w.WriteHeader code).Code = code := by
  simp [ResponseWriter.WriteHeader, h]

theorem call_keeps_status (w : ResponseWriter) (c : WriterCall) (h : w.wroteHeader = true) :
    (w.call c).wroteHeader = true ∧ (w.call c).Code = w.Code := by
  cases c <;>
    simp [ResponseWriter.call, ResponseWriter.WriteHeader, ResponseWriter.Write,
      ResponseWriter.HeaderSet, ResponseWriter.HeaderDel, h]

theorem calls_keep_status (cs : List WriterCall) :
    ∀ w : ResponseWriter, w.wroteHeader = true →
      (w.calls cs).wroteHeader = true ∧ (w.calls cs).Code = w.Code := by
  induction cs with
  | nil => intro w h; exact ⟨h, rfl⟩
  | cons c cs ih =>
    intro w h
    have hc := call_keeps_status w c h
    have := ih (w.call c) hc.1
    simp only [ResponseWriter.calls, List.foldl_cons] at this ⊢
    exact ⟨this.1, this.2.trans hc.2⟩

theorem viaInterface_NotFoundHandler : viaInterface NotFoundHandler := by
  intro w _
  exact ⟨[.HeaderSet "Content-Type" "text/plain; charset=utf-8",
    .HeaderSet "X-Content-Type-Options" "nosniff", .WriteHeader 404,
    .Write ("404 page not found" ++ "\n")], rfl⟩

theorem viaInterface_applyAll (h : Handler) (hh : viaInterface h) :
    ∀ ms : List MiddleWareFunc,
      (∀ m ∈ ms, ∀ g, viaInterface g → viaInterface (m g)) → viaInterface (applyAll ms h) := by
  intro ms
  induction ms with
  | nil => intro _; exact hh
  | cons m ms ih =>
    intro hms
    have htail := ih (fun m1 hm1 => hms m1 (List.mem_cons_of_mem _ hm1))
    exact hms m (List.mem_cons_self _ _) _ htail

theorem calls_append (w : ResponseWriter) (cs ds : List WriterCall) :
    w.calls (cs ++ ds) = (w.calls cs).calls ds := by
  simp [ResponseWriter.calls]

theorem viaInterface_trace (name : String) (h : Handler) (hh : viaInterface h) :
    viaInterface (trace name h) := by
  intro w r
  obtain ⟨cs, hcs⟩ := hh (w.Write (name ++ ";")) r
  refine ⟨[.Write (name ++ ";")] ++ cs ++ [.Write (name ++ "-post;")], ?_⟩
  rw [calls_append, calls_append]
  simp only [trace, hcs]
  rfl

/-! ## The claims -/

/-- Claim C1. For a request that is not under the static prefix and for which some route
matches both path and method, `ServeHTTP` behaves exactly as the handler of the earliest
such route (every route before it fails on path or method and is skipped), composed with
that route's middleware and the global middleware: the result is the result of that chain
on the untouched writer, so no other route's handler runs and neither the 405 nor the 404
responder writes anything. -/
theorem ServeHTTP_first_full_match (FileServer : FileSystem → Handler) (rtr : AMRouter)
    (w : ResponseWriter) (r : Request)
    (hstatic : underStaticPrefix rtr r = false)
    (hmatch : ∃ route ∈ rtr.Routes, fullMatch route r = true) :
    ∃ pre route post,
      rtr.Routes = pre ++ route :: post ∧
      (∀ x ∈ pre, fullMatch x r = false) ∧
      fullMatch route r = true ∧
      ServeHTTP FileServer rtr w r
        = applyAll rtr.GlobalMiddleware (applyAll route.Middleware (terminal route r)) w r := by
  obtain ⟨pre, route, post, hsplit, hpre, hroute⟩ := exists_first_fullMatch r rtr.Routes hmatch
  refine ⟨pre, route, post, hsplit, hpre, hroute, ?_⟩
  rw [ServeHTTP_not_static FileServer rtr w r hstatic, hsplit, scan_skip rtr w r pre _ _ hpre,
    scan_hit rtr w r route post _ hroute]

/-- Instance of C1 on `twoMethods` and `GET /`: the first route (`POST`) is skipped and the
handler of the second route answers. -/
theorem ServeHTTP_first_full_match_witness :
    underStaticPrefix twoMethods getRoot = false ∧
    twoMethods.Routes.map (fun route => fullMatch route getRoot) = [false, true] ∧
    (∃ pre route post,
      twoMethods.Routes = pre ++ route :: post ∧
      (∀ x ∈ pre, fullMatch x getRoot = false) ∧
      fullMatch route getRoot = true ∧
      ServeHTTP noFiles twoMethods NewRecorder getRoot
        = applyAll twoMethods.GlobalMiddleware
            (applyAll route.Middleware (terminal route getRoot)) NewRecorder getRoot) ∧
    ServeHTTP noFiles twoMethods NewRecorder getRoot = NewRecorder.Write "second" :=
  ⟨by decide, by decide,
   ServeHTTP_first_full_match noFiles twoMethods NewRecorder getRoot (by decide)
     ⟨⟨"GET", exactPath "/", say "second", []⟩, by simp [twoMethods], by decide⟩,
   by decide⟩

/-- Claim C2, refuted as stated. On `twoMethods` both routes match the path `/`; for `GET /`
the route registered first (`POST`) does not win: the handler of the later route runs. -/
theorem first_path_match_does_not_win :
    underStaticPrefix twoMethods getRoot = false ∧
    twoMethods.Routes.map (fun route => pathMatches route getRoot) = [true, true] ∧
    twoMethods.Routes.map AMRoute.Method = ["POST", "GET"] ∧
    ServeHTTP noFiles twoMethods NewRecorder getRoot = say "second" NewRecorder getRoot ∧
    ServeHTTP noFiles twoMethods NewRecorder getRoot ≠ say "first" NewRecorder getRoot := by
  decide

/-- Claim C2, amended. For a request that is not under the static prefix, the first route in
registration order that matches both the path and the method wins regardless of later
routes: `ServeHTTP` runs the chain of that route, and replacing the routes registered
after it by any other routes (also ones that match path and method) changes nothing. -/
theorem ServeHTTP_first_full_match_shadows (FileServer : FileSystem → Handler)
    (rtr : AMRouter) (w : ResponseWriter) (r : Request) (pre post : List AMRoute)
    (route : AMRoute)
    (hstatic : underStaticPrefix rtr r = false)
    (hroutes : rtr.Routes = pre ++ route :: post)
    (hpre : ∀ x ∈ pre, fullMatch x r = false)
    (hroute : fullMatch route r = true) :
    ServeHTTP FileServer rtr w r
        = applyAll rtr.GlobalMiddleware (applyAll route.Middleware (terminal route r)) w r ∧
    ∀ later : List AMRoute,
      ServeHTTP FileServer { rtr with Routes := pre ++ route :: later } w r
        = ServeHTTP FileServer rtr w r := by
  have hmain : ServeHTTP FileServer rtr w r
      = applyAll rtr.GlobalMiddleware (applyAll route.Middleware (terminal route r)) w r := by
    rw [ServeHTTP_not_static FileServer rtr w r hstatic, hroutes,
      scan_skip rtr w r pre _ _ hpre, scan_hit rtr w r route post _ hroute]
  refine ⟨hmain, ?_⟩
  intro later
  rw [hmain, ServeHTTP_not_static FileServer _ w r (by simpa [underStaticPrefix] using hstatic)]
  show ServeHTTP.scan _ w r (pre ++ route :: later) [] = _
  rw [scan_skip _ w r pre _ _ hpre, scan_hit _ w r route later _ hroute]

/-- Instance of amended C2: on `twoMethods` and `POST /` the first route wins although the
route after it matches the path too. -/
theorem ServeHTTP_first_full_match_shadows_witness :
    underStaticPrefix twoMethods ⟨"POST", "/", []⟩ = false ∧
    twoMethods.Routes.map (fun route => pathMatches route ⟨"POST", "/", []⟩) = [true, true] ∧
    twoMethods.Routes.map (fun route => fullMatch route ⟨"POST", "/", []⟩) = [true, false] ∧
    (ServeHTTP noFiles twoMethods NewRecorder ⟨"POST", "/", []⟩
        = applyAll twoMethods.GlobalMiddleware
            (applyAll [] (terminal ⟨"POST", exactPath "/", say "first", []⟩ ⟨"POST", "/", []⟩))
            NewRecorder ⟨"POST", "/", []⟩ ∧
      ∀ later : List AMRoute,
        ServeHTTP noFiles
            { twoMethods with
              Routes := [] ++ ⟨"POST", exactPath "/", say "first", []⟩ :: later }
            NewRecorder ⟨"POST", "/", []⟩
          = ServeHTTP noFiles twoMethods NewRecorder ⟨"POST", "/", []⟩) :=
  ⟨by decide, by decide, by decide,
   ServeHTTP_first_full_match_shadows noFiles twoMethods NewRecorder ⟨"POST", "/", []⟩ []
     [⟨"GET", exactPath "/", say "second", []⟩] ⟨"POST", exactPath "/", say "first", []⟩
     (by decide) rfl (by simp) (by decide)⟩

/-- Claim C3. For a request that is not under the static prefix, whose path matches the
pattern of at least one route while no route matches both path and method, `ServeHTTP`
runs the 405 responder wrapped in the global middleware (first global middleware
outermost) and no route handler. The responder is given the methods of all routes whose
pattern matches the path, in registration order with duplicates kept; on a writer whose
status is not yet written it sets status 405, sends the header `Allow` with these methods
joined by `", "`, and appends the body `405 method not allowed`; on every writer its calls
are `Header().Set("Allow", ...)`, `WriteHeader(405)` and the write of the body. -/
theorem ServeHTTP_method_not_allowed (FileServer : FileSystem → Handler) (rtr : AMRouter)
    (w : ResponseWriter) (r : Request)
    (hstatic : underStaticPrefix rtr r = false)
    (hpath : ∃ route ∈ rtr.Routes, pathMatches route r = true)
    (hnone : ∀ route ∈ rtr.Routes, fullMatch route r = false) :
    ServeHTTP FileServer rtr w r
        = applyAll rtr.GlobalMiddleware
            (ServeHTTP.customErrFunc
              ((rtr.Routes.filter (fun route => pathMatches route r)).map AMRoute.Method)) w r ∧
    ServeHTTP FileServer rtr w r
        = AddMiddlewareToHandler
            (ServeHTTP.customErrFunc
              ((rtr.Routes.filter (fun route => pathMatches route r)).map AMRoute.Method))
            rtr.GlobalMiddleware w r ∧
    (∀ (allow : List String) (w0 : ResponseWriter) (r0 : Request),
      ServeHTTP.customErrFunc allow w0 r0
        = w0.calls [.HeaderSet "Allow" (String.intercalate ", " allow), .WriteHeader 405,
            .Write "405 method not allowed"]) ∧
    ∀ (allow : List String) (w0 : ResponseWriter) (r0 : Request), w0.wroteHeader = false →
      (ServeHTTP.customErrFunc allow w0 r0).Code = 405 ∧
      (ServeHTTP.customErrFunc allow w0 r0).ResultHeader "Allow"
        = some (String.intercalate ", " allow) ∧
      (ServeHTTP.customErrFunc allow w0 r0).Body = w0.Body ++ "405 method not allowed" := by
  have hallow : (rtr.Routes.filter (fun route => pathMatches route r)).map AMRoute.Method
      ≠ [] := by
    obtain ⟨route, hmem, hroute⟩ := hpath
    intro hnil
    have hfil : route ∈ rtr.Routes.filter (fun route => pathMatches route r) :=
      List.mem_filter.mpr ⟨hmem, hroute⟩
    rw [List.map_eq_nil_iff] at hnil
    rw [hnil] at hfil
    cases hfil
  have hmain : ServeHTTP FileServer rtr w r
      = applyAll rtr.GlobalMiddleware
          (ServeHTTP.customErrFunc
            ((rtr.Routes.filter (fun route => pathMatches route r)).map AMRoute.Method)) w r := by
    have hscan := scan_skip rtr w r rtr.Routes [] [] hnone
    rw [List.append_nil, List.nil_append] at hscan
    rw [ServeHTTP_not_static FileServer rtr w r hstatic, hscan, scan_nil_allow rtr w r _ hallow]
  refine ⟨hmain, ?_, ?_, ?_⟩
  · rw [addMiddleware_eq_applyAll]; exact hmain
  · intro allow w0 r0
    rw [← Join_eq_intercalate]
    rfl
  · intro allow w0 r0 hw0
    simp [ServeHTTP.customErrFunc, ResponseWriter.Write, ResponseWriter.WriteHeader,
      ResponseWriter.HeaderSet, ResponseWriter.ResultHeader, hw0, Join_eq_intercalate]

/-- Instance of C3 on `threeRoutes` and `PUT /`: status 405, `Allow: POST, GET, POST`. -/
theorem ServeHTTP_method_not_allowed_witness :
    underStaticPrefix threeRoutes putRoot = false ∧
    threeRoutes.Routes.map (fun route => pathMatches route putRoot) = [true, true, true] ∧
    threeRoutes.Routes.map (fun route => fullMatch route putRoot) = [false, false, false] ∧
    (ServeHTTP noFiles threeRoutes NewRecorder putRoot).Code = 405 ∧
    (ServeHTTP noFiles threeRoutes NewRecorder putRoot).ResultHeader "Allow"
      = some "POST, GET, POST" ∧
    (ServeHTTP noFiles threeRoutes NewRecorder putRoot).ResultHeader "X-Global"
      = some "true" ∧
    (ServeHTTP noFiles threeRoutes NewRecorder putRoot).Body = "405 method not allowed" ∧
    ServeHTTP noFiles threeRoutes NewRecorder putRoot
      = applyAll threeRoutes.GlobalMiddleware
          (ServeHTTP.customErrFunc
            ((threeRoutes.Routes.filter (fun route => pathMatches route putRoot)).map
              AMRoute.Method)) NewRecorder putRoot :=
  ⟨by decide, by decide, by decide, by decide, by decide, by decide, by decide,
   (ServeHTTP_method_not_allowed noFiles threeRoutes NewRecorder putRoot (by decide)
     ⟨⟨"GET", exactPath "/", say "second", []⟩, by simp [threeRoutes], by decide⟩
     (by
       intro route hroute
       simp only [threeRoutes, List.mem_cons, List.mem_singleton, List.not_mem_nil,
         or_false] at hroute
       rcases hroute with h | h | h <;> subst h <;> decide)).1⟩

/-- Claim C4. For a request that is not under the static prefix and whose path matches no
route pattern, `ServeHTTP` writes status 404 and then runs the not-found handler wrapped in
the global middleware only (first global middleware outermost): no route handler and no
route middleware takes part. On a writer whose status was not yet written the status is
404 after that write and stays 404 under every later sequence of writer calls; so the
response status is 404 whenever the global middleware acts on the writer through its
interface. -/
theorem ServeHTTP_not_found (FileServer : FileSystem → Handler) (rtr : AMRouter)
    (w : ResponseWriter) (r : Request)
    (hstatic : underStaticPrefix rtr r = false)
    (hnone : ∀ route ∈ rtr.Routes, pathMatches route r = false) :
    ServeHTTP FileServer rtr w r
        = applyAll rtr.GlobalMiddleware NotFoundHandler (w.WriteHeader 404) r ∧
    ServeHTTP FileServer rtr w r
        = AddMiddlewareToHandler NotFoundHandler rtr.GlobalMiddleware (w.WriteHeader 404) r ∧
    (w.wroteHeader = false →
      (w.WriteHeader 404).Code = 404 ∧
      ∀ cs : List WriterCall, ((w.WriteHeader 404).calls cs).Code = 404) ∧
    (w.wroteHeader = false →
      (∀ m ∈ rtr.GlobalMiddleware, ∀ h, viaInterface h → viaInterface (m h)) →
      (ServeHTTP FileServer rtr w r).Code = 404) := by
  have hfull : ∀ route ∈ rtr.Routes, fullMatch route r = false := by
    intro route hmem
    simp [fullMatch, hnone route hmem]
  have hfilter : rtr.Routes.filter (fun route => pathMatches route r) = [] := by
    rw [List.filter_eq_nil_iff]
    intro route hmem
    simp [hnone route hmem]
  have hmain : ServeHTTP FileServer rtr w r
      = applyAll rtr.GlobalMiddleware NotFoundHandler (w.WriteHeader 404) r := by
    have hscan := scan_skip rtr w r rtr.Routes [] [] hfull
    rw [List.append_nil, List.nil_append, hfilter, List.map_nil] at hscan
    rw [ServeHTTP_not_static FileServer rtr w r hstatic, hscan, scan_nil_empty]
  have hsticky : w.wroteHeader = false →
      ∀ cs : List WriterCall, ((w.WriteHeader 404).calls cs).Code = 404 := by
    intro hw cs
    rw [(calls_keep_status cs _ (WriteHeader_wrote w 404)).2, WriteHeader_code_fresh w 404 hw]
  refine ⟨hmain, ?_, ?_, ?_⟩
  · rw [addMiddleware_eq_applyAll]; exact hmain
  · intro hw
    exact ⟨WriteHeader_code_fresh w 404 hw, hsticky hw⟩
  · intro hw hmw
    obtain ⟨cs, hcs⟩ :=
      viaInterface_applyAll NotFoundHandler viaInterface_NotFoundHandler
        rtr.GlobalMiddleware hmw (w.WriteHeader 404) r
    rw [hmain, hcs]
    exact hsticky hw cs

/-- Instance of C4 on `onion` and `GET /missing`: the global middleware `G1`, `G2` run
around the not-found handler, the route middleware `R1`, `R2` do not, the status is 404. -/
theorem ServeHTTP_not_found_witness :
    underStaticPrefix onion getMissing = false ∧
    onion.Routes.map (fun route => pathMatches route getMissing) = [false] ∧
    (ServeHTTP noFiles onion NewRecorder getMissing).Code = 404 ∧
    (ServeHTTP noFiles onion NewRecorder getMissing).Body
      = "G1;G2;404 page not found\n" ++ "G2-post;G1-post;" ∧
    ServeHTTP noFiles onion NewRecorder getMissing
      = applyAll onion.GlobalMiddleware NotFoundHandler (NewRecorder.WriteHeader 404)
          getMissing :=
  ⟨by decide, by decide,
   (ServeHTTP_not_found noFiles onion NewRecorder getMissing (by decide)
     (by
       intro route hroute
       simp only [onion, List.mem_singleton] at hroute
       subst hroute
       decide)).2.2.2 rfl
     (by
       intro m hm h hh
       simp only [onion, List.mem_cons, List.mem_singleton, List.not_mem_nil,
         or_false] at hm
       rcases hm with hm | hm <;> subst hm <;> exact viaInterface_trace _ h hh),
   by decide,
   (ServeHTTP_not_found noFiles onion NewRecorder getMissing (by decide)
     (by
       intro route hroute
       simp only [onion, List.mem_singleton] at hroute
       subst hroute
       decide)).1⟩

/-- Claim C5. For a matched route (the earliest route matching path and method of a request
that is not under the static prefix) the handler `ServeHTTP` runs is
`AddMiddlewareToHandler(terminal, G ++ R)`, which is
`AddMiddlewareToHandler(AddMiddlewareToHandler(terminal, R), G)`, for the global middleware
`G` and the route middleware `R`. With `G = [G1, G2]` and `R = [R1, R2]` it is
`G1 (G2 (R1 (R2 terminal)))`, and for middleware that write their name before and after the
wrapped handler the writes come in the order G1, G2, R1, R2, handler, R2-post, R1-post,
G2-post, G1-post. -/
theorem ServeHTTP_middleware_order (FileServer : FileSystem → Handler) (rtr : AMRouter)
    (w : ResponseWriter) (r : Request) (pre post : List AMRoute) (route : AMRoute)
    (hstatic : underStaticPrefix rtr r = false)
    (hroutes : rtr.Routes = pre ++ route :: post)
    (hpre : ∀ x ∈ pre, fullMatch x r = false)
    (hroute : fullMatch route r = true) :
    ServeHTTP FileServer rtr w r
        = AddMiddlewareToHandler (terminal route r) (rtr.GlobalMiddleware ++ route.Middleware)
            w r ∧
    ServeHTTP FileServer rtr w r
        = AddMiddlewareToHandler (AddMiddlewareToHandler (terminal route r) route.Middleware)
            rtr.GlobalMiddleware w r ∧
    (∀ G1 G2 R1 R2 : MiddleWareFunc,
      rtr.GlobalMiddleware = [G1, G2] → route.Middleware = [R1, R2] →
      ServeHTTP FileServer rtr w r = G1 (G2 (R1 (R2 (terminal route r)))) w r) ∧
    (∀ g1 g2 r1 r2 : String,
      rtr.GlobalMiddleware = [trace g1, trace g2] →
      route.Middleware = [trace r1, trace r2] →
      ServeHTTP FileServer rtr w r
        = ((((route.Handler
              ((((w.Write (g1 ++ ";")).Write (g2 ++ ";")).Write (r1 ++ ";")).Write (r2 ++ ";"))
              (r.WithContext (routeCtx route r))).Write
            (r2 ++ "-post;")).Write (r1 ++ "-post;")).Write (g2 ++ "-post;")).Write
            (g1 ++ "-post;")) := by
  have hmain : ServeHTTP FileServer rtr w r
      = applyAll rtr.GlobalMiddleware (applyAll route.Middleware (terminal route r)) w r := by
    rw [ServeHTTP_not_static FileServer rtr w r hstatic, hroutes,
      scan_skip rtr w r pre _ _ hpre, scan_hit rtr w r route post _ hroute]
  refine ⟨?_, ?_, ?_, ?_⟩
  · rw [addMiddleware_eq_applyAll, applyAll_append]; exact hmain
  · rw [addMiddleware_eq_applyAll, addMiddleware_eq_applyAll]; exact hmain
  · intro G1 G2 R1 R2 hG hR
    rw [hmain, hG, hR]
    rfl
  · intro g1 g2 r1 r2 hG hR
    rw [hmain, hG, hR]
    rfl

/-- Instance of C5 on `onion` and `GET /`: the body shows the order of execution. -/
theorem ServeHTTP_middleware_order_witness :
    underStaticPrefix onion getRoot = false ∧
    onion.Routes.map (fun route => fullMatch route getRoot) = [true] ∧
    ServeHTTP noFiles onion NewRecorder getRoot
      = AddMiddlewareToHandler
          (terminal ⟨"GET", exactPath "/", say "handler;", [trace "R1", trace "R2"]⟩ getRoot)
          (onion.GlobalMiddleware ++ [trace "R1", trace "R2"]) NewRecorder getRoot ∧
    (ServeHTTP noFiles onion NewRecorder getRoot).Body
      = "G1;G2;R1;R2;handler;R2-post;R1-post;G2-post;G1-post;" :=
  ⟨by decide, by decide,
   (ServeHTTP_middleware_order noFiles onion NewRecorder getRoot [] []
     ⟨"GET", exactPath "/", say "handler;", [trace "R1", trace "R2"]⟩
     (by decide) rfl (by simp) (by decide)).1,
   by decide⟩

/-- Claim C6. `AddMiddlewareToHandler(h, m1, ..., mn)` is `m1 (m2 (... (mn h)))`, the right
fold of application over the list: the first middleware is the outermost wrapper, each
middleware is applied once, and for the empty list the result is `h`. -/
theorem AddMiddlewareToHandler_foldr (h : Handler) (middleware : List MiddleWareFunc) :
    AddMiddlewareToHandler h middleware = middleware.foldr (fun m acc => m acc) h ∧
    AddMiddlewareToHandler h [] = h ∧
    (∀ (m : MiddleWareFunc) (rest : List MiddleWareFunc),
      AddMiddlewareToHandler h (m :: rest) = m (AddMiddlewareToHandler h rest)) ∧
    (∀ m1 m2 m3 : MiddleWareFunc, AddMiddlewareToHandler h [m1, m2, m3] = m1 (m2 (m3 h))) := by
  refine ⟨addMiddleware_eq_applyAll h middleware, rfl, ?_, ?_⟩
  · intro m rest
    rw [addMiddleware_eq_applyAll, addMiddleware_eq_applyAll]
    rfl
  · intro m1 m2 m3
    rfl

/-- Claim C7. For a request whose context carries the parameter list `fields` and an index
`idx ≥ 0`, `GetField` returns `fields[idx]` when `idx < len(fields)`, and the empty string
when `idx ≥ len(fields)`, in particular when `fields` is empty; it does not panic. -/
theorem GetField_in_range (r : Request) (fields : List String) (idx : Int)
    (hctx : context.Value r.Context Key.CtxKey = Any.strings fields)
    (hidx : 0 ≤ idx) :
    (∀ h : idx.toNat < fields.length, GetField r idx = .ok (fields.get ⟨idx.toNat, h⟩)) ∧
    ((fields.length : Int) ≤ idx → GetField r idx = .ok "") ∧
    (fields = [] → GetField r idx = .ok "") ∧
    GetField r idx = .ok (fields.getD idx.toNat "") := by
  have hge : (fields.length : Int) ≤ idx → GetField r idx = .ok "" := by
    intro hlen
    by_cases hpos : fields.length > 0
    · simp [GetField, hctx, assertStrings, hpos, hlen]
    · simp [GetField, hctx, assertStrings, hpos]
  have hlt : ∀ h : idx.toNat < fields.length,
      GetField r idx = .ok (fields.get ⟨idx.toNat, h⟩) := by
    intro h
    have hpos : fields.length > 0 := by omega
    have hnot : ¬ (idx ≥ (fields.length : Int)) := by omega
    have hneg : ¬ (idx < 0) := by omega
    simp [GetField, hctx, assertStrings, hpos, hnot, index, hneg, List.getElem?_eq_getElem h]
  refine ⟨hlt, hge, ?_, ?_⟩
  · intro hnil
    subst hnil
    exact hge (by simpa using hidx)
  · by_cases h : idx.toNat < fields.length
    · rw [hlt h]; simp [List.getD, List.getElem?_eq_getElem h]
    · have hlen : (fields.length : Int) ≤ idx := by omega
      rw [hge hlen]
      simp [List.getD, List.getElem?_eq_none (Nat.le_of_not_lt h)]

/-- Instance of C7 on the cases of `TestGetField`: index 0 of `["hello-world"]`. -/
theorem GetField_in_range_witness :
    context.Value (requestWithFields ["hello-world"]).Context Key.CtxKey
      = Any.strings ["hello-world"] ∧
    (0 : Int) ≤ 0 ∧
    GetField (requestWithFields ["hello-world"]) 0 = .ok "hello-world" ∧
    GetField (requestWithFields ["hello-world"]) 0
      = .ok (["hello-world"].getD (0 : Int).toNat "") :=
  ⟨rfl, by decide,
   (GetField_in_range (requestWithFields ["hello-world"]) ["hello-world"] 0 rfl
     (by decide)).1 (by decide),
   (GetField_in_range (requestWithFields ["hello-world"]) ["hello-world"] 0 rfl
     (by decide)).2.2.2⟩

/-- Claim C8, evaluated on the code. On a request whose context holds no value under
`CtxKey` the type assertion of `GetField` panics for every index: the call does not return
the empty string. -/
theorem GetField_without_params_panics :
    (∀ (method path : String) (idx : Int),
      GetField ⟨method, path, context.Background⟩ idx = .error Panic.interfaceConversion) ∧
    GetField bareRequest 0 = .error Panic.interfaceConversion ∧
    GetField bareRequest 0 ≠ .ok "" := by
  refine ⟨fun _ _ _ => rfl, rfl, ?_⟩
  intro h
  cases h

/-- Claim C9, evaluated on the code. On a request carrying a non-empty parameter list,
`GetField` reaches the slice access with every negative index and panics: the guard
`index >= len(fields)` lets negative indices through. -/
theorem GetField_negative_index_panics :
    GetField (requestWithFields ["hello"]) (-1) = .error Panic.indexOutOfRange ∧
    GetField (requestWithFields ["hello"]) (-1) ≠ .ok "" ∧
    (∀ (a : String) (rest : List String) (n : Nat),
      GetField (requestWithFields (a :: rest)) (Int.negSucc n)
        = .error Panic.indexOutOfRange) := by
  refine ⟨rfl, ?_, ?_⟩
  · intro h
    cases h
  · intro a rest n
    have hnot : ¬ ((rest.length : Int) + 1 ≤ Int.negSucc n) := by
      have := Int.negSucc_lt_zero n
      omega
    have hneg : Int.negSucc n < 0 := Int.negSucc_lt_zero n
    simp [GetField, requestWithFields, Request.Context, context.WithValue, context.Value,
      assertStrings, index, hnot, hneg]

/-- Claim C10. `AddRoute` returns a non-nil error exactly when `"^" + pattern + "$"` fails
to compile; the error is the one of `regexp.Compile`, and the router, with its route table
and every other field, is then unchanged. -/
theorem AddRoute_error_iff_compile_fails (Compile : String → Except String regexp.Regexp)
    (rtr : AMRouter) (method pattern : String) (handler : Handler)
    (mware : List MiddleWareFunc) :
    ((AddRoute Compile rtr method pattern handler mware).2 ≠ none ↔
      ∃ err, Compile ("^" ++ pattern ++ "$") = .error err) ∧
    ((AddRoute Compile rtr method pattern handler mware).2 ≠ none →
      (AddRoute Compile rtr method pattern handler mware).1 = rtr) ∧
    (∀ err, Compile ("^" ++ pattern ++ "$") = .error err →
      AddRoute Compile rtr method pattern handler mware = (rtr, some err)) := by
  cases hc : Compile ("^" ++ pattern ++ "$") with
  | error err => simp [AddRoute, hc]
  | ok re => simp [AddRoute, hc]

/-! ## Lemmas on registration, the static fallback and path parameters -/

theorem foldl_append_singleton {α : Type} (xs : List α) :
    ∀ init : List α, xs.foldl (fun acc x => acc ++ [x]) init = init ++ xs := by
  induction xs with
  | nil => intro init; simp
  | cons x xs ih => intro init; simp [ih]

theorem mwareToAdd_eq (mware : List MiddleWareFunc) :
    (if mware.length > 0 then mware.foldl (fun acc mw => acc ++ [mw]) [] else [])
      = mware := by
  cases mware with
  | nil => rfl
  | cons m rest => simp [foldl_append_singleton]

theorem AddRoute_ok (Compile : String → Except String regexp.Regexp) (rtr : AMRouter)
    (method pattern : String) (handler : Handler) (mware : List MiddleWareFunc)
    (re : regexp.Regexp) (hc : Compile ("^" ++ pattern ++ "$") = .ok re) :
    AddRoute Compile rtr method pattern handler mware
      = ({ rtr with Routes := rtr.Routes ++ [⟨method, re, handler, mware⟩] }, none) := by
  simp only [AddRoute, hc, mwareToAdd_eq]

theorem ServeStaticDirectory_static (FileServer : FileSystem → Handler) (rtr : AMRouter)
    (w : ResponseWriter) (r : Request) (hstatic : underStaticPrefix rtr r = true) :
    ServeStaticDirectory FileServer rtr w r
      = (StripPrefix (rtr.PathToStaticDir ++ "/")
          (FileServer (if rtr.IsProduction then FileSystem.FS rtr.EmbeddedStaticDir
            else FileSystem.Dir rtr.PathToStaticDir)) w r, true) := by
  unfold underStaticPrefix at hstatic
  cases hprod : rtr.IsProduction <;> simp [ServeStaticDirectory, hstatic, hprod]

theorem ServeHTTP_static (FileServer : FileSystem → Handler) (rtr : AMRouter)
    (w : ResponseWriter) (r : Request) (hstatic : underStaticPrefix rtr r = true) :
    ServeHTTP FileServer rtr w r
      = StripPrefix (rtr.PathToStaticDir ++ "/")
          (FileServer (if rtr.IsProduction then FileSystem.FS rtr.EmbeddedStaticDir
            else FileSystem.Dir rtr.PathToStaticDir)) w r := by
  simp [ServeHTTP, ServeStaticDirectory_static FileServer rtr w r hstatic]

theorem HasPrefix_empty (s : String) : strings.HasPrefix s "" = true := by
  simp [strings.HasPrefix]

theorem GetField_getD (r : Request) (fields : List String) (idx : Int)
    (hctx : context.Value r.Context Key.CtxKey = Any.strings fields) (hidx : 0 ≤ idx) :
    GetField r idx = .ok (fields.getD idx.toNat "") := by
  by_cases hpos : fields.length > 0
  · by_cases hlen : (fields.length : Int) ≤ idx
    · have hn : fields.length ≤ idx.toNat := by omega
      simp [GetField, hctx, assertStrings, hpos, hlen, List.getD, List.getElem?_eq_none hn]
    · have hn : idx.toNat < fields.length := by omega
      have hneg : ¬ (idx < 0) := by omega
      simp [GetField, hctx, assertStrings, hpos, hlen, index, hneg, List.getD,
        List.getElem?_eq_getElem hn]
  · have hnil : fields = [] := by
      cases fields with
      | nil => rfl
      | cons a rest => simp at hpos
    subst hnil
    simp [GetField, hctx, assertStrings]

theorem Value_routeCtx (route : AMRoute) (r r1 : Request) :
    context.Value (r1.WithContext (routeCtx route r)).Context Key.CtxKey
      = Any.strings ((route.Path.FindStringSubmatch r.Path).drop 1) := by
  simp [Request.WithContext, Request.Context, routeCtx, context.WithValue, context.Value]

/-- Claim C11. When `"^" + pattern + "$"` compiles, `AddRoute` returns no error and the new
route table is the old table followed by exactly one route with the given method, the
compiled anchored pattern, the given handler and the given middleware in the same order
(the empty list when none is given). The routes already registered keep their content and
order, nothing is deduplicated, and `GlobalMiddleware`, `Middleware` and the static
configuration are unchanged. -/
theorem AddRoute_appends_route (Compile : String → Except String regexp.Regexp)
    (rtr : AMRouter) (method pattern : String) (handler : Handler)
    (mware : List MiddleWareFunc) (re : regexp.Regexp)
    (hc : Compile ("^" ++ pattern ++ "$") = .ok re) :
    (AddRoute Compile rtr method pattern handler mware).2 = none ∧
    (AddRoute Compile rtr method pattern handler mware).1.Routes
      = rtr.Routes ++ [{ Method := method, Path := re, Handler := handler,
                         Middleware := mware }] ∧
    (AddRoute Compile rtr method pattern handler mware).1.Routes.length
      = rtr.Routes.length + 1 ∧
    (AddRoute Compile rtr method pattern handler mware).1.Routes.take rtr.Routes.length
      = rtr.Routes ∧
    (AddRoute Compile rtr method pattern handler mware).1.GlobalMiddleware
      = rtr.GlobalMiddleware ∧
    (AddRoute Compile rtr method pattern handler mware).1.Middleware = rtr.Middleware ∧
    (AddRoute Compile rtr method pattern handler mware).1.PathToStaticDir
      = rtr.PathToStaticDir ∧
    (AddRoute Compile rtr method pattern handler mware).1.EmbeddedStaticDir
      = rtr.EmbeddedStaticDir ∧
    (AddRoute Compile rtr method pattern handler mware).1.IsProduction
      = rtr.IsProduction ∧
    (AddRoute Compile
        (AddRoute Compile rtr method pattern handler mware).1
        method pattern handler mware).1.Routes
      = rtr.Routes ++ [⟨method, re, handler, mware⟩, ⟨method, re, handler, mware⟩] := by
  have h1 := AddRoute_ok Compile rtr method pattern handler mware re hc
  have h2 := AddRoute_ok Compile
    { rtr with Routes := rtr.Routes ++ [⟨method, re, handler, mware⟩] }
    method pattern handler mware re hc
  rw [h1]
  refine ⟨rfl, rfl, by simp, by simp, rfl, rfl, rfl, rfl, rfl, ?_⟩
  rw [h2]
  simp

/-- Instance of C11: `AddRoute("GET", "/", h)` on `NewRouter()` with the compiler of the
fragment. -/
theorem AddRoute_appends_route_witness :
    regexp.Compile ("^" ++ "/" ++ "$") = .ok rootPattern ∧
    (AddRoute regexp.Compile NewRouter "GET" "/" (say "hello") []).2 = none ∧
    (AddRoute regexp.Compile NewRouter "GET" "/" (say "hello") []).1.Routes
      = NewRouter.Routes ++ [{ Method := "GET", Path := rootPattern, Handler := say "hello",
                               Middleware := [] }] :=
  ⟨rfl,
   (AddRoute_appends_route regexp.Compile NewRouter "GET" "/" (say "hello") [] rootPattern
     rfl).1,
   (AddRoute_appends_route regexp.Compile NewRouter "GET" "/" (say "hello") [] rootPattern
     rfl).2.1⟩

/-- Claim C12, evaluated on the code. The pattern `/a|/b` compiles and is registered by
`AddRoute` as `^/a|/b$`, in which `^` belongs to the first branch only and `$` to the
second only. The whole path `/axyz` does not match `/a|/b`, and neither does `/x/b`, yet
the registered route matches both paths and `ServeHTTP` runs its handler for them. -/
theorem AddRoute_alternation_is_not_anchored :
    (AddRoute regexp.Compile staticSlash "GET" "/a|/b" (say "ab") []).2 = none ∧
    wholeMatch "/a|/b" "/a" = true ∧
    wholeMatch "/a|/b" "/axyz" = false ∧
    wholeMatch "/a|/b" "/x/b" = false ∧
    altRouter.Routes.map (fun route => route.Path.FindStringSubmatch "/axyz") = [["/a"]] ∧
    altRouter.Routes.map (fun route => route.Path.FindStringSubmatch "/x/b") = [["/b"]] ∧
    altRouter.Routes.map (fun route => pathMatches route ⟨"GET", "/axyz", []⟩) = [true] ∧
    ServeHTTP noFiles altRouter NewRecorder ⟨"GET", "/axyz", []⟩ = NewRecorder.Write "ab" ∧
    ServeHTTP noFiles altRouter NewRecorder ⟨"GET", "/x/b", []⟩ = NewRecorder.Write "ab" := by
  decide

/-- Claim C13. For a request whose path begins with the static prefix, `ServeHTTP` is the
call of `http.StripPrefix(prefix + "/", fileServer)` and nothing else, with the on-disk
file server when `IsProduction` is false and the embedded one when it is true: the result
does not depend on the registered routes, on the route middleware or on the global
middleware, so no route handler, no middleware and neither error responder of the router
takes part. -/
theorem ServeHTTP_static_short_circuit (FileServer : FileSystem → Handler) (rtr : AMRouter)
    (w : ResponseWriter) (r : Request)
    (hstatic : underStaticPrefix rtr r = true) :
    ServeHTTP FileServer rtr w r
      = StripPrefix (rtr.PathToStaticDir ++ "/")
          (FileServer (if rtr.IsProduction then FileSystem.FS rtr.EmbeddedStaticDir
            else FileSystem.Dir rtr.PathToStaticDir)) w r ∧
    (rtr.IsProduction = false →
      ServeHTTP FileServer rtr w r
        = StripPrefix (rtr.PathToStaticDir ++ "/")
            (FileServer (FileSystem.Dir rtr.PathToStaticDir)) w r) ∧
    (rtr.IsProduction = true →
      ServeHTTP FileServer rtr w r
        = StripPrefix (rtr.PathToStaticDir ++ "/")
            (FileServer (FileSystem.FS rtr.EmbeddedStaticDir)) w r) ∧
    ∀ (routes : List AMRoute) (mware gmware : List MiddleWareFunc),
      ServeHTTP FileServer
          { rtr with Routes := routes, Middleware := mware, GlobalMiddleware := gmware } w r
        = ServeHTTP FileServer rtr w r := by
  have hmain := ServeHTTP_static FileServer rtr w r hstatic
  refine ⟨hmain, ?_, ?_, ?_⟩
  · intro hprod
    rw [hmain, hprod]
    rfl
  · intro hprod
    rw [hmain, hprod]
    rfl
  · intro routes mware gmware
    rw [hmain, ServeHTTP_static FileServer _ w r (by simpa [underStaticPrefix] using hstatic)]

/-- Instance of C13 on `staticRouter`, whose only route is on the path of the static file
and which has a global middleware: the file server answers, the body holds no trace of the
route handler or of the middleware. -/
theorem ServeHTTP_static_short_circuit_witness :
    underStaticPrefix staticRouter getStaticFile = true ∧
    staticRouter.Routes.map (fun route => fullMatch route getStaticFile) = [true] ∧
    ServeHTTP (serveFiles [("test.txt", "Static content")]) staticRouter NewRecorder
        getStaticFile
      = StripPrefix (staticRouter.PathToStaticDir ++ "/")
          (serveFiles [("test.txt", "Static content")]
            (if staticRouter.IsProduction then FileSystem.FS staticRouter.EmbeddedStaticDir
              else FileSystem.Dir staticRouter.PathToStaticDir)) NewRecorder getStaticFile ∧
    (ServeHTTP (serveFiles [("test.txt", "Static content")]) staticRouter NewRecorder
        getStaticFile).Body = "Static content" :=
  ⟨by decide, by decide,
   (ServeHTTP_static_short_circuit (serveFiles [("test.txt", "Static content")])
     staticRouter NewRecorder getStaticFile (by decide)).1,
   by decide⟩

/-- Claim C14. `ServeStaticDirectory` returns true exactly when the request path begins
with `PathToStaticDir`, whatever `IsProduction` and the registered routes are: with the
prefix `/static/` it returns true for `/static/test.txt` in both modes and false for `/`. -/
theorem ServeStaticDirectory_returns_HasPrefix (FileServer : FileSystem → Handler)
    (rtr : AMRouter) (w : ResponseWriter) (r : Request) :
    (ServeStaticDirectory FileServer rtr w r).2
      = strings.HasPrefix r.Path rtr.PathToStaticDir ∧
    ((ServeStaticDirectory FileServer rtr w r).2 = true ↔
      r.Path.data.take rtr.PathToStaticDir.data.length = rtr.PathToStaticDir.data) ∧
    (∀ (isProd : Bool) (routes : List AMRoute),
      (ServeStaticDirectory FileServer
          { rtr with IsProduction := isProd, Routes := routes } w r).2
        = (ServeStaticDirectory FileServer rtr w r).2) ∧
    (∀ (isProd : Bool) (method : String),
      (ServeStaticDirectory FileServer
          { rtr with PathToStaticDir := "/static/", IsProduction := isProd } w
          ⟨method, "/static/test.txt", r.ctx⟩).2 = true) ∧
    (∀ (isProd : Bool) (method : String),
      (ServeStaticDirectory FileServer
          { rtr with PathToStaticDir := "/static/", IsProduction := isProd } w
          ⟨method, "/", r.ctx⟩).2 = false) := by
  have hmain : ∀ (rt : AMRouter) (rq : Request),
      (ServeStaticDirectory FileServer rt w rq).2
        = strings.HasPrefix rq.Path rt.PathToStaticDir := by
    intro rt rq
    unfold ServeStaticDirectory
    by_cases hp : strings.HasPrefix rq.Path rt.PathToStaticDir = true
    · cases hprod : rt.IsProduction <;> simp [hp, hprod]
    · simp [hp]
  refine ⟨hmain rtr r, ?_, ?_, ?_, ?_⟩
  · rw [hmain rtr r]
    simp only [strings.HasPrefix]
    rw [List.isPrefixOf_iff_prefix, List.prefix_iff_eq_take]
    exact eq_comm
  · intro isProd routes
    rw [hmain, hmain]
  · intro isProd method
    rw [hmain]
    show strings.HasPrefix "/static/test.txt" "/static/" = true
    decide
  · intro isProd method
    rw [hmain]
    show strings.HasPrefix "/" "/static/" = false
    decide

/-- Claim C15. For a matched route (the earliest route matching path and method of a
request that is not under the static prefix) `ServeHTTP` runs the chain around the route's
handler, and the request handed to that handler carries under `CtxKey` the submatches of
the path without the full match, whatever request the middleware pass down. On it
`GetField(r, i)` returns submatch `i + 1`, the text of capture group `i + 1`, for every
`i` below the number of groups, and the empty string for every `i` from the number of
groups on. -/
theorem handler_request_carries_captures (FileServer : FileSystem → Handler)
    (rtr : AMRouter) (w : ResponseWriter) (r : Request) (pre post : List AMRoute)
    (route : AMRoute)
    (hstatic : underStaticPrefix rtr r = false)
    (hroutes : rtr.Routes = pre ++ route :: post)
    (hpre : ∀ x ∈ pre, fullMatch x r = false)
    (hroute : fullMatch route r = true) :
    ServeHTTP FileServer rtr w r
      = applyAll rtr.GlobalMiddleware
          (applyAll route.Middleware
            (fun w1 r1 => route.Handler w1 (r1.WithContext (routeCtx route r)))) w r ∧
    ∀ r1 : Request,
      context.Value (r1.WithContext (routeCtx route r)).Context Key.CtxKey
        = Any.strings ((route.Path.FindStringSubmatch r.Path).drop 1) ∧
      (∀ (i : Nat) (h : i + 1 < (route.Path.FindStringSubmatch r.Path).length),
        GetField (r1.WithContext (routeCtx route r)) (i : Int)
          = .ok ((route.Path.FindStringSubmatch r.Path).get ⟨i + 1, h⟩)) ∧
      (∀ idx : Int, ((route.Path.FindStringSubmatch r.Path).length : Int) - 1 ≤ idx →
        GetField (r1.WithContext (routeCtx route r)) idx = .ok "") := by
  have hmain : ServeHTTP FileServer rtr w r
      = applyAll rtr.GlobalMiddleware (applyAll route.Middleware (terminal route r)) w r := by
    rw [ServeHTTP_not_static FileServer rtr w r hstatic, hroutes,
      scan_skip rtr w r pre _ _ hpre, scan_hit rtr w r route post _ hroute]
  have hlen : 0 < (route.Path.FindStringSubmatch r.Path).length := by
    simp only [fullMatch, pathMatches, Bool.and_eq_true, decide_eq_true_eq] at hroute
    exact hroute.1
  refine ⟨hmain, ?_⟩
  intro r1
  refine ⟨Value_routeCtx route r r1, ?_, ?_⟩
  · intro i h
    rw [GetField_getD _ _ (i : Int) (Value_routeCtx route r r1) (by omega)]
    have hi : i < ((route.Path.FindStringSubmatch r.Path).drop 1).length := by
      rw [List.length_drop]; omega
    simp [List.getD, List.getElem?_eq_getElem hi, Nat.add_comm]
    rw [List.getElem?_eq_getElem h]
    rfl
  · intro idx hidx
    rw [GetField_getD _ _ idx (Value_routeCtx route r r1) (by omega)]
    have hi : ((route.Path.FindStringSubmatch r.Path).drop 1).length ≤ idx.toNat := by
      rw [List.length_drop]; omega
    simp [List.getD, List.getElem?_eq_none hi]
    have hout : (route.Path.FindStringSubmatch r.Path).length ≤ idx.toNat + 1 := by omega
    rw [List.getElem?_eq_none hout]
    rfl

/-- Instance of C15 on `userRouter` and `GET /user/42`: the handler, which writes path
parameter 0, writes `42`. -/
theorem handler_request_carries_captures_witness :
    underStaticPrefix userRouter getUser = false ∧
    userRouter.Routes = [] ++ userRoute :: [] ∧
    fullMatch userRoute getUser = true ∧
    userRoute.Path.FindStringSubmatch getUser.Path = ["/user/42", "42"] ∧
    (ServeHTTP noFiles userRouter NewRecorder getUser).Body = "42" ∧
    GetField (getUser.WithContext (routeCtx userRoute getUser)) ((0 : Nat) : Int)
      = .ok "42" ∧
    GetField (getUser.WithContext (routeCtx userRoute getUser)) 1 = .ok "" :=
  ⟨by decide, rfl, by decide, by decide, by decide,
   ((handler_request_carries_captures noFiles userRouter NewRecorder getUser [] []
      userRoute (by decide) rfl (by simp) (by decide)).2 getUser).2.1 0 (by decide),
   ((handler_request_carries_captures noFiles userRouter NewRecorder getUser [] []
      userRoute (by decide) rfl (by simp) (by decide)).2 getUser).2.2 1 (by decide)⟩

/-- Claim C16, evaluated on the code. On the router obtained from `NewRouter()` and
`AddRoute("GET", "/", h)` the static prefix is the empty string, so `ServeHTTP` hands
every request to the file server: for `GET /`, `POST /` and `GET /missing` the response is
what the file server answers for the path without its leading `/`, whatever the handler
`h` is. With a file server that finds no file, `GET /` is answered 404 and not with
`hello`, and `POST /` is answered 404 without an `Allow` header, not 405. -/
theorem NewRouter_scenario_is_served_statically :
    (AddRoute regexp.Compile NewRouter "GET" "/" (say "hello") []).2 = none ∧
    helloRouter.PathToStaticDir = "" ∧
    helloRouter.Routes.map (fun route => fullMatch route getRoot) = [true] ∧
    (∀ (FileServer : FileSystem → Handler) (w : ResponseWriter),
      ServeHTTP FileServer helloRouter w getRoot
        = FileServer (FileSystem.Dir "") w ⟨"GET", "", context.Background⟩) ∧
    (∀ (FileServer : FileSystem → Handler) (w : ResponseWriter),
      ServeHTTP FileServer helloRouter w postRoot
        = FileServer (FileSystem.Dir "") w ⟨"POST", "", context.Background⟩) ∧
    (∀ (FileServer : FileSystem → Handler) (w : ResponseWriter),
      ServeHTTP FileServer helloRouter w getMissing
        = FileServer (FileSystem.Dir "") w ⟨"GET", "missing", context.Background⟩) ∧
    (∀ (FileServer : FileSystem → Handler) (w : ResponseWriter) (h : Handler),
      ServeHTTP FileServer (AddRoute regexp.Compile NewRouter "GET" "/" h []).1 w getRoot
        = ServeHTTP FileServer helloRouter w getRoot) ∧
    (ServeHTTP noFiles helloRouter NewRecorder getRoot).Code = 404 ∧
    (ServeHTTP noFiles helloRouter NewRecorder getRoot).Body ≠ "hello" ∧
    (ServeHTTP noFiles helloRouter NewRecorder postRoot).Code = 404 ∧
    (ServeHTTP noFiles helloRouter NewRecorder postRoot).ResultHeader "Allow" = none := by
  refine ⟨rfl, rfl, by decide, fun _ _ => rfl, fun _ _ => rfl, fun _ _ => rfl,
    fun _ _ _ => rfl, by decide, by decide, by decide, by decide⟩

/-- Claim C17. `Use(mw)` makes `GlobalMiddleware` the old list followed by `mw`: the
length grows by one and the earlier entries keep their order; `Routes`, the `Middleware`
field and the static configuration are unchanged. -/
theorem Use_appends_global_middleware (rtr : AMRouter) (mw : MiddleWareFunc) :
    (Use rtr mw).GlobalMiddleware = rtr.GlobalMiddleware ++ [mw] ∧
    (Use rtr mw).GlobalMiddleware.length = rtr.GlobalMiddleware.length + 1 ∧
    (Use rtr mw).GlobalMiddleware.take rtr.GlobalMiddleware.length = rtr.GlobalMiddleware ∧
    (Use rtr mw).Routes = rtr.Routes ∧
    (Use rtr mw).Middleware = rtr.Middleware ∧
    (Use rtr mw).PathToStaticDir = rtr.PathToStaticDir ∧
    (Use rtr mw).EmbeddedStaticDir = rtr.EmbeddedStaticDir ∧
    (Use rtr mw).IsProduction = rtr.IsProduction := by
  refine ⟨rfl, ?_, ?_, rfl, rfl, rfl, rfl, rfl⟩
  · simp [Use]
  · simp [Use]

/-- Claim C18, refuted as stated. On `userRouter` and `GET /user/42` the request received
by the global middleware and by the route middleware is the incoming request, which
carries no captures: `GetField` on it panics, while inside the route's handler it returns
`42`. -/
theorem middleware_request_lacks_captures :
    underStaticPrefix userRouter getUser = false ∧
    userRouter.Routes.map (fun route => fullMatch route getUser) = [true] ∧
    (ServeHTTP noFiles userRouter NewRecorder getUser).ResultHeader "X-Global"
      = some "<panic>" ∧
    (ServeHTTP noFiles userRouter NewRecorder getUser).ResultHeader "X-Route"
      = some "<panic>" ∧
    (ServeHTTP noFiles userRouter NewRecorder getUser).Body = "42" ∧
    renderField (GetField getUser 0)
      ≠ renderField (GetField (getUser.WithContext (routeCtx userRoute getUser)) 0) := by
  decide

/-- Claim C18, amended. For a matched route the captures are computed before the chain
runs and are attached only for the route's handler. The chain is called on the incoming
request itself, so the outermost middleware receives the request as it came in, and each
middleware receives what the one before it passes on. The route's handler receives the
request passed down by the innermost middleware with its context replaced by the context
of the incoming request extended with the captures under `CtxKey`, and `GetField` on that
request returns the captures for every index from 0 on. -/
theorem chain_receives_incoming_request (FileServer : FileSystem → Handler)
    (rtr : AMRouter) (w : ResponseWriter) (r : Request) (pre post : List AMRoute)
    (route : AMRoute)
    (hstatic : underStaticPrefix rtr r = false)
    (hroutes : rtr.Routes = pre ++ route :: post)
    (hpre : ∀ x ∈ pre, fullMatch x r = false)
    (hroute : fullMatch route r = true) :
    ServeHTTP FileServer rtr w r
      = applyAll (rtr.GlobalMiddleware ++ route.Middleware) (terminal route r) w r ∧
    (∀ (m : MiddleWareFunc) (rest : List MiddleWareFunc),
      rtr.GlobalMiddleware ++ route.Middleware = m :: rest →
      ServeHTTP FileServer rtr w r = m (applyAll rest (terminal route r)) w r) ∧
    (rtr.GlobalMiddleware ++ route.Middleware = [] →
      ServeHTTP FileServer rtr w r = route.Handler w (r.WithContext (routeCtx route r))) ∧
    (∀ (w1 : ResponseWriter) (r1 : Request),
      terminal route r w1 r1
        = route.Handler w1
            (r1.WithContext
              (context.WithValue r.Context Key.CtxKey
                (Any.strings ((route.Path.FindStringSubmatch r.Path).drop 1))))) ∧
    (∀ (r1 : Request) (idx : Int), 0 ≤ idx →
      GetField (r1.WithContext (routeCtx route r)) idx
        = .ok (((route.Path.FindStringSubmatch r.Path).drop 1).getD idx.toNat "")) := by
  have hmain : ServeHTTP FileServer rtr w r
      = applyAll (rtr.GlobalMiddleware ++ route.Middleware) (terminal route r) w r := by
    rw [ServeHTTP_not_static FileServer rtr w r hstatic, hroutes,
      scan_skip rtr w r pre _ _ hpre, scan_hit rtr w r route post _ hroute, applyAll_append]
  refine ⟨hmain, ?_, ?_, ?_, ?_⟩
  · intro m rest hchain
    rw [hmain, hchain]
    rfl
  · intro hchain
    rw [hmain, hchain]
    rfl
  · intro w1 r1
    rfl
  · intro r1 idx hidx
    exact GetField_getD _ _ idx (Value_routeCtx route r r1) hidx

/-- Instance of amended C18 on `userRouter` and `GET /user/42`: the global middleware is
called on the incoming request, the handler's request yields `42`. -/
theorem chain_receives_incoming_request_witness :
    underStaticPrefix userRouter getUser = false ∧
    userRouter.Routes = [] ++ userRoute :: [] ∧
    fullMatch userRoute getUser = true ∧
    ServeHTTP noFiles userRouter NewRecorder getUser
      = probeField "X-Global" 0
          (applyAll [probeField "X-Route" 0] (terminal userRoute getUser))
          NewRecorder getUser ∧
    GetField (getUser.WithContext (routeCtx userRoute getUser)) 0 = .ok "42" :=
  ⟨by decide, rfl, by decide,
   (chain_receives_incoming_request noFiles userRouter NewRecorder getUser [] []
     userRoute (by decide) rfl (by simp) (by decide)).2.1
     (probeField "X-Global" 0) [probeField "X-Route" 0] rfl,
   (chain_receives_incoming_request noFiles userRouter NewRecorder getUser [] []
     userRoute (by decide) rfl (by simp) (by decide)).2.2.2.2 getUser 0 (by decide)⟩

/-- Claim C19, evaluated on the code. With the static prefix `/static/` and the path
`/static/test.txt`, `ServeStaticDirectory` strips `/static//`, the prefix followed by one
more `/`, which the path does not begin with: `http.StripPrefix` answers not-found itself
and the file server is not consulted, in either mode. The file server is consulted for
`test.txt` when the prefix is `/static`. -/
theorem ServeStaticDirectory_strips_prefix_and_slash :
    (∀ (FileServer : FileSystem → Handler) (w : ResponseWriter) (isProd : Bool),
      ServeStaticDirectory FileServer { staticSlash with IsProduction := isProd } w
          getStaticFile
        = (NotFound w getStaticFile, true)) ∧
    (ServeStaticDirectory (serveFiles [("test.txt", "Static content")]) staticSlash
        NewRecorder getStaticFile).1.Code = 404 ∧
    (∀ (FileServer : FileSystem → Handler) (w : ResponseWriter),
      ServeStaticDirectory FileServer { staticSlash with PathToStaticDir := "/static" } w
          getStaticFile
        = (FileServer (FileSystem.Dir "/static") w
            ⟨"GET", "test.txt", context.Background⟩, true)) ∧
    (∀ (FileServer : FileSystem → Handler) (w : ResponseWriter),
      ServeStaticDirectory FileServer
          { staticSlash with PathToStaticDir := "/static", IsProduction := true } w
          getStaticFile
        = (FileServer (FileSystem.FS staticSlash.EmbeddedStaticDir) w
            ⟨"GET", "test.txt", context.Background⟩, true)) := by
  refine ⟨?_, by decide, fun _ _ => rfl, fun _ _ => rfl⟩
  intro FileServer w isProd
  cases isProd <;> rfl

/-- Claim C20. For a router whose `PathToStaticDir` is the empty string, the value
`NewRouter` leaves it at, `ServeStaticDirectory` returns true for every request and
`ServeHTTP` is the call of `http.StripPrefix("/", fileServer)` and nothing else: for every
route table, global middleware, method and path the result is the same, so no registered
route handler runs and neither error responder of the router runs. -/
theorem ServeHTTP_empty_static_dir (FileServer : FileSystem → Handler) (rtr : AMRouter)
    (w : ResponseWriter) (r : Request)
    (hempty : rtr.PathToStaticDir = "") :
    NewRouter.PathToStaticDir = "" ∧
    (ServeStaticDirectory FileServer rtr w r).2 = true ∧
    ServeHTTP FileServer rtr w r = (ServeStaticDirectory FileServer rtr w r).1 ∧
    ServeHTTP FileServer rtr w r
      = StripPrefix "/"
          (FileServer (if rtr.IsProduction then FileSystem.FS rtr.EmbeddedStaticDir
            else FileSystem.Dir "")) w r ∧
    ∀ (routes : List AMRoute) (gmware : List MiddleWareFunc),
      ServeHTTP FileServer { rtr with Routes := routes, GlobalMiddleware := gmware } w r
        = ServeHTTP FileServer rtr w r := by
  have hstatic : ∀ rt : AMRouter, rt.PathToStaticDir = "" → underStaticPrefix rt r = true := by
    intro rt hrt
    simp [underStaticPrefix, hrt, HasPrefix_empty]
  have hpair := ServeStaticDirectory_static FileServer rtr w r (hstatic rtr hempty)
  have hmain := ServeHTTP_static FileServer rtr w r (hstatic rtr hempty)
  refine ⟨rfl, ?_, ?_, ?_, ?_⟩
  · rw [hpair]
  · rw [hmain, hpair]
  · rw [hmain, hempty]
    rfl
  · intro routes gmware
    rw [hmain,
      ServeHTTP_static FileServer { rtr with Routes := routes, GlobalMiddleware := gmware }
        w r (hstatic _ hempty)]

/-- Instance of C20 on `helloRouter` and `GET /`: the route matches path and method, yet
the answer is the one of the file server. -/
theorem ServeHTTP_empty_static_dir_witness :
    helloRouter.PathToStaticDir = "" ∧
    helloRouter.Routes.map (fun route => fullMatch route getRoot) = [true] ∧
    (ServeStaticDirectory noFiles helloRouter NewRecorder getRoot).2 = true ∧
    ServeHTTP noFiles helloRouter NewRecorder getRoot
      = StripPrefix "/"
          (noFiles (if helloRouter.IsProduction then
              FileSystem.FS helloRouter.EmbeddedStaticDir
            else FileSystem.Dir "")) NewRecorder getRoot :=
  ⟨rfl, by decide,
   (ServeHTTP_empty_static_dir noFiles helloRouter NewRecorder getRoot rfl).2.1,
   (ServeHTTP_empty_static_dir noFiles helloRouter NewRecorder getRoot rfl).2.2.2.1⟩

end amrouter
